import Mathlib

/-!
Shallow embedding of `app.py` (batch CVAT export/download tool).

The file models, faithfully to the Python source:
  * `parse_task_ids`   — comma/whitespace tokenisation and `int()` parsing;
  * `resolve_download_url` — absolute-vs-relative URL resolution;
  * `wait_for_request_finished` — the polling loop over a finite trace of
    status responses, each paired with the elapsed time (a rational,
    standing for the float `time.time() - start`) observed at that poll;
  * `download_file`    — HTTP download with staging to a `.part` file and an
    atomic rename, over an association-list file-system model; the function
    also returns the list of every intermediate file-system state so that
    visibility invariants ("no file at the destination before the rename")
    can be stated;
  * `main`'s orchestration loop — per-task skip / trigger / poll / download
    with per-task exception isolation, emitting an event trace that records
    network calls, skips, error logs and saves.

Strings are Lean `String`s; Python `bytes` chunks are `List Nat`.
Directories (`ensure_dir`) and logging to stdout are outside the model.
-/

/-- Characters Python's `str.split()` (no argument) treats as separators
(ASCII whitespace; the statuses and IDs handled here are ASCII). -/
def isPyWs (c : Char) : Bool :=
  c = ' ' || c = '\t' || c = '\n' || c = '\r' || c = '\x0b' || c = '\x0c'

/-- ASCII lower-casing of one character, as Python `str.lower()` acts on the
ASCII range. -/
def pyLowerChar (c : Char) : Char :=
  if 'A' ≤ c && c ≤ 'Z' then Char.ofNat (c.toNat + 32) else c

/-- Python `s.lower()` restricted to ASCII text. -/
def pyLower (s : String) : String :=
  ⟨s.data.map pyLowerChar⟩

/-- Accumulator-style worker for Python `str.split()`: split on runs of
whitespace, dropping empty tokens. `acc` holds the current token reversed. -/
def splitWsAux : List Char → List Char → List (List Char)
  | [], acc => if acc = [] then [] else [acc.reverse]
  | c :: cs, acc =>
      if isPyWs c then
        if acc = [] then splitWsAux cs [] else acc.reverse :: splitWsAux cs []
      else splitWsAux cs (c :: acc)

/-- Python `s.split()` with no argument. -/
def pySplitWs (s : List Char) : List (List Char) :=
  splitWsAux s []

/-- Python `s.strip()` (ASCII whitespace) on a token. -/
def pyStrip (t : List Char) : List Char :=
  ((t.dropWhile isPyWs).reverse.dropWhile isPyWs).reverse

/-- Digit run of a Python integer literal, allowing single underscores
between digits (as `int()` does); returns its value. `acc` is the value of
the digits already consumed. -/
def pyDigitsGo : List Char → Nat → Option Nat
  | [], acc => some acc
  | '_' :: rest, acc =>
      match rest with
      | [] => none
      | d :: rest2 =>
          if d.isDigit then pyDigitsGo rest2 (acc * 10 + (d.toNat - 48)) else none
  | c :: rest, acc =>
      if c.isDigit then pyDigitsGo rest (acc * 10 + (c.toNat - 48)) else none

/-- A nonempty digit run (first character must be a digit). -/
def pyDigits : List Char → Option Nat
  | [] => none
  | c :: rest => if c.isDigit then pyDigitsGo rest (c.toNat - 48) else none

/-- Python `int(token)` on ASCII text: strip whitespace, optional sign,
digits (with `_` separators); `none` models the `ValueError`. -/
def pyInt (t : List Char) : Option Int :=
  match pyStrip t with
  | '+' :: rest => (pyDigits rest).map Int.ofNat
  | '-' :: rest => (pyDigits rest).map (fun n => -(n : Int))
  | s => (pyDigits s).map Int.ofNat

/-- The token list `parse_task_ids` works on: replace every comma by a
space, then `split()`. -/
def tokensOf (raw : String) : List (List Char) :=
  pySplitWs (raw.data.map (fun c => if c = ',' then ' ' else c))

/-- The `for t in tokens` loop body of `parse_task_ids`: skip a token whose
`strip()` is empty, otherwise `int(t)` (a failure aborts with `none`,
modelling the uncaught `ValueError`). `acc` holds parsed ids reversed. -/
def parseIdsGo : List (List Char) → List Int → Option (List Int)
  | [], acc => some acc.reverse
  | t :: ts, acc =>
      if pyStrip t = [] then parseIdsGo ts acc
      else
        match pyInt t with
        | some n => parseIdsGo ts (n :: acc)
        | none => none

/-- The function `parse_task_ids(raw)` from `app.py`. -/
def parse_task_ids (raw : String) : Option (List Int) :=
  parseIdsGo (tokensOf raw) []

/-- Python `s.rstrip(sep)` for a single strip character. -/
def pyRstrip (s : String) (sep : Char) : String :=
  ⟨(s.data.reverse.dropWhile (fun c => c = sep)).reverse⟩

/-- Python `s.lstrip(sep)` for a single strip character. -/
def pyLstrip (s : String) (sep : Char) : String :=
  ⟨s.data.dropWhile (fun c => c = sep)⟩

/-- Python `s.startswith(pre)` (on exact characters). -/
def pyStartsWith (s pre : String) : Bool :=
  pre.data.isPrefixOf s.data

/-- The function `resolve_download_url(server, result_url)` from `app.py`. -/
def resolve_download_url (server result_url : String) : String :=
  if pyStartsWith result_url "http://" || pyStartsWith result_url "https://" then
    result_url
  else
    pyRstrip server '/' ++ "/" ++ pyLstrip result_url '/'

/-! ## Job poller (`wait_for_request_finished`) -/

/-- One status response from `/api/requests/{id}`, the fields
`wait_for_request_finished` reads.  A `None` `result_url` in the SDK model
is represented by the empty string (both are falsy in `if not rq.result_url`). -/
structure RqStatus where
  status : String
  message : String
  result_url : String
  deriving DecidableEq

/-- The exceptions `wait_for_request_finished` can raise:
`RuntimeError("… finished but result_url is empty")`,
`RuntimeError("… failed: <message>")` and
`TimeoutError("… (last status=<status>)")`; each constructor carries the
data interpolated into the Python message. -/
inductive PollError where
  | emptyResult (rq_id : String)
  | jobFailed (rq_id : String) (message : String)
  | timedOut (rq_id : String) (lastStatus : String)
  deriving DecidableEq

deriving instance DecidableEq for Except

/-- The loop `wait_for_request_finished(api_client, rq_id, poll_seconds, timeout_seconds)`
run against a finite trace of responses.  Each trace entry pairs the
response with the elapsed time `time.time() - start` (a rational modelling
the float) observed on that iteration.  `none` means the trace was
exhausted with the loop still polling.  The branch order is the source's:
`finished` check, then `failed`, then the timeout comparison. -/
def wait_for_request_finished (rq_id : String) (timeout_seconds : Int) :
    List (RqStatus × ℚ) → Option (Except PollError String)
  | [] => none
  | (rq, elapsed) :: rest =>
      let status := rq.status
      if pyLower status = "finished" then
        if rq.result_url = "" then some (Except.error (PollError.emptyResult rq_id))
        else some (Except.ok rq.result_url)
      else if pyLower status = "failed" then
        some (Except.error (PollError.jobFailed rq_id rq.message))
      else if (timeout_seconds : ℚ) < elapsed then
        some (Except.error (PollError.timedOut rq_id status))
      else
        wait_for_request_finished rq_id timeout_seconds rest

/-! ## File system model and `download_file` -/

/-- A flat file system: association list from path to file contents
(bytes as `List Nat`); the first binding for a path wins. -/
def FS : Type := List (String × List Nat)

instance : DecidableEq FS := by
  unfold FS
  infer_instance

/-- Contents at a path, `none` when no file exists there. -/
def fsLookup : FS → String → Option (List Nat)
  | [], _ => none
  | (q, v) :: rest, p => if q = p then some v else fsLookup rest p

/-- Remove any binding for `p`. -/
def fsErase : FS → String → FS
  | [], _ => []
  | (q, v) :: rest, p => if q = p then fsErase rest p else (q, v) :: fsErase rest p

/-- Create or overwrite the file at `p` with contents `v`. -/
def fsWrite (fs : FS) (p : String) (v : List Nat) : FS :=
  (p, v) :: fsErase fs p

/-- Python `Path.replace`: atomically rename `src` onto `dst` (overwriting `dst`).
If `src` does not exist the model leaves the file system unchanged. -/
def fsRename (fs : FS) (src dst : String) : FS :=
  match fsLookup fs src with
  | none => fs
  | some v => fsWrite (fsErase fs src) dst v

/-- The HTTP response seen by `download_file`: final status code and the
chunk sequence produced by `iter_content(chunk_size=1024*1024)`. -/
structure Response where
  status_code : Nat
  chunks : List (List Nat)
  deriving DecidableEq

/-- Result of `download_file`: normal return, or the `requests.HTTPError`
raised by `raise_for_status()` (carrying the status code). -/
inductive DlOutcome where
  | ok
  | httpError (code : Nat)
  deriving DecidableEq

/-- The `for chunk in r.iter_content(...)` loop: append each nonempty chunk
(`if chunk:`) to the open temporary file; returns the file-system state
after each write, in order. -/
def chunkStates (tmp : String) : List (List Nat) → FS → List FS
  | [], _ => []
  | c :: cs, fs =>
      if c = [] then chunkStates tmp cs fs
      else
        let fs2 := fsWrite fs tmp (((fsLookup fs tmp).getD []) ++ c)
        fs2 :: chunkStates tmp cs fs2

/-- The function `download_file(url, out_path, username, password)` from `app.py`.
`raise_for_status()` raises exactly for status codes in `[400, 600)`; the
temporary path is the destination with `.part` appended (what
`out_path.with_suffix(out_path.suffix + ".part")` yields for the
`task_<id>.zip` names the program uses).  Returns the outcome, the list of
every file-system state strictly before the final rename (truncation of the
temporary file, then each chunk write), and the final file-system state. -/
def download_file (r : Response) (out_path : String) (fs : FS) :
    DlOutcome × List FS × FS :=
  if 400 ≤ r.status_code ∧ r.status_code < 600 then
    (DlOutcome.httpError r.status_code, [], fs)
  else
    let tmp := out_path ++ ".part"
    let fs1 := fsWrite fs tmp []
    let mids := chunkStates tmp r.chunks fs1
    (DlOutcome.ok, fs1 :: mids, fsRename (mids.getLastD fs1) tmp out_path)

/-! ## Orchestration loop (`main`) -/

/-- Observable events of one run of `main`'s loop: network calls (the
export trigger, the polling phase, the HTTP download), the "skip (exists)"
log line, the per-task error line printed to stderr by the `except`
handlers, and the "saved" line. -/
inductive Event where
  | skip (id : Int)
  | netTrigger (id : Int)
  | netPoll (id : Int)
  | netDownload (id : Int)
  | errorLog (id : Int)
  | saved (id : Int)
  deriving DecidableEq

/-- The external world for one task identifier: the outcome of
`tasks_api.create_dataset_export` (`Except.error` models an
`ApiException`, `Except.ok` the returned `rq_id`), the status-response
trace consumed by the poller, and the HTTP response the download URL
yields. -/
structure TaskEnv where
  trigger : Except String String
  pollTrace : List (RqStatus × ℚ)
  response : String → Response

/-- The destination path, `outdir` joined with `task_<id>.zip`. -/
def outFile (outdir : String) (id : Int) : String :=
  outdir ++ "/task_" ++ toString id ++ ".zip"

/-- One iteration of `main`'s `for task_id in task_ids` loop: skip when the
output file exists and `--overwrite` is not set, else trigger → poll →
resolve → download inside the `try`, any exception caught and logged.
`none` models a poll trace exhausted with the loop still polling (the real
program would still be waiting). -/
def processTask (server outdir : String) (overwrite : Bool) (timeout_seconds : Int)
    (env : Int → TaskEnv) (fs : FS) (ev : List Event) (id : Int) :
    Option (FS × List Event) :=
  let out_file := outFile outdir id
  if (fsLookup fs out_file).isSome ∧ overwrite = false then
    some (fs, ev ++ [Event.skip id])
  else
    let e := env id
    let ev1 := ev ++ [Event.netTrigger id]
    match e.trigger with
    | Except.error _ => some (fs, ev1 ++ [Event.errorLog id])
    | Except.ok rq_id =>
        let ev2 := ev1 ++ [Event.netPoll id]
        match wait_for_request_finished rq_id timeout_seconds e.pollTrace with
        | none => none
        | some (Except.error _) => some (fs, ev2 ++ [Event.errorLog id])
        | some (Except.ok result_url) =>
            let url := resolve_download_url server result_url
            let ev3 := ev2 ++ [Event.netDownload id]
            match download_file (e.response url) out_file fs with
            | (DlOutcome.ok, _, fs2) => some (fs2, ev3 ++ [Event.saved id])
            | (DlOutcome.httpError _, _, fs2) => some (fs2, ev3 ++ [Event.errorLog id])

/-- The whole `for task_id in task_ids` loop, threading the file system and
the event log. -/
def mainLoop (server outdir : String) (overwrite : Bool) (timeout_seconds : Int)
    (env : Int → TaskEnv) : List Int → FS → List Event → Option (FS × List Event)
  | [], fs, ev => some (fs, ev)
  | id :: rest, fs, ev =>
      match processTask server outdir overwrite timeout_seconds env fs ev id with
      | none => none
      | some (fs2, ev2) => mainLoop server outdir overwrite timeout_seconds env rest fs2 ev2

/-- The body of `main()` after argument parsing: parse the task-id string (an invalid
token raises an uncaught `ValueError`, so the process exits with status 1
before the API client is built and before any network call), then run the
loop; a completed loop always exits with status 0.  The result is the exit
status, the final file system and the event log. -/
def main_run (raw server outdir : String) (overwrite : Bool) (timeout_seconds : Int)
    (env : Int → TaskEnv) (fs : FS) : Option (Nat × FS × List Event) :=
  match parse_task_ids raw with
  | none => some (1, fs, [])
  | some ids =>
      (mainLoop server outdir overwrite timeout_seconds env ids fs []).map
        (fun r => (0, r.1, r.2))

/-- Concrete environment used to state the end-to-end scenario of claim C7
(and, for ids 3 and 4, the poll-failure and download-failure stages in its
witness): id 1 succeeds end to end, id 3's job fails on the platform, id 4
finishes but the download answers 404, every other id (in particular id 2)
is rejected at the export-trigger step. -/
def envScenario : Int → TaskEnv := fun id =>
  if id = 1 then
    { trigger := Except.ok "rq1"
      pollTrace := [(⟨"queued", "", ""⟩, 0), (⟨"finished", "", "/api/r1"⟩, 2)]
      response := fun _ => ⟨200, [[1, 2]]⟩ }
  else if id = 3 then
    { trigger := Except.ok "rq3"
      pollTrace := [(⟨"failed", "disk full", ""⟩, 1)]
      response := fun _ => ⟨200, []⟩ }
  else if id = 4 then
    { trigger := Except.ok "rq4"
      pollTrace := [(⟨"finished", "", "/r4"⟩, 1)]
      response := fun _ => ⟨404, []⟩ }
  else
    { trigger := Except.error "boom"
      pollTrace := []
      response := fun _ => ⟨200, []⟩ }

/-! ## Helper lemmas -/

theorem fsLookup_fsErase (p q : String) :
    ∀ fs : FS, fsLookup (fsErase fs p) q = if q = p then none else fsLookup fs q := by
  intro fs
  induction fs with
  | nil => simp [fsErase, fsLookup]
  | cons e rest ih =>
      obtain ⟨a, v⟩ := e
      by_cases hap : a = p
      · subst hap
        by_cases hqp : q = a
        · subst hqp
          simp [fsErase, ih]
        · simp [fsErase, fsLookup, hqp, ih, Ne.symm hqp]
      · by_cases hqp : q = p
        · subst hqp
          simp [fsErase, fsLookup, hap, ih]
        · by_cases haq : a = q <;> simp [fsErase, fsLookup, hap, hqp, haq, ih]

theorem fsLookup_fsWrite (fs : FS) (p q : String) (v : List Nat) :
    fsLookup (fsWrite fs p v) q = if q = p then some v else fsLookup fs q := by
  by_cases h : q = p
  · subst h
    simp [fsWrite, fsLookup]
  · have h2 : ¬ (p = q) := fun hh => h hh.symm
    simp [fsWrite, fsLookup, h, h2, fsLookup_fsErase p q fs]

theorem ne_append_part (s : String) : s ≠ s ++ ".part" := by
  intro h
  have hlen := congrArg String.length h
  rw [String.length_append] at hlen
  have h5 : ".part".length = 5 := rfl
  rw [h5] at hlen
  omega

theorem fsLookup_chunkStates_ne (tmp q : String) (hq : q ≠ tmp) :
    ∀ (cs : List (List Nat)) (fs : FS), ∀ s ∈ chunkStates tmp cs fs,
      fsLookup s q = fsLookup fs q := by
  intro cs
  induction cs with
  | nil => intro fs s hs; simp [chunkStates] at hs
  | cons c cs ih =>
      intro fs s hs
      by_cases hc : c = []
      · rw [chunkStates, if_pos hc] at hs
        exact ih fs s hs
      · rw [chunkStates, if_neg hc] at hs
        have hw : fsLookup (fsWrite fs tmp (((fsLookup fs tmp).getD []) ++ c)) q
            = fsLookup fs q := by
          rw [fsLookup_fsWrite, if_neg hq]
        rcases List.mem_cons.mp hs with h | h
        · rw [h, hw]
        · rw [ih _ s h, hw]

theorem fsLookup_chunkStates_getLastD (tmp : String) :
    ∀ (cs : List (List Nat)) (fs : FS) (acc : List Nat),
      fsLookup fs tmp = some acc →
      fsLookup ((chunkStates tmp cs fs).getLastD fs) tmp = some (acc ++ cs.flatten) := by
  intro cs
  induction cs with
  | nil => intro fs acc h; simpa [chunkStates] using h
  | cons c cs ih =>
      intro fs acc h
      by_cases hc : c = []
      · rw [chunkStates, if_pos hc]
        rw [ih fs acc h]
        simp [hc]
      · rw [chunkStates, if_neg hc]
        rw [List.getLastD_cons]
        have hw : fsLookup (fsWrite fs tmp (((fsLookup fs tmp).getD []) ++ c)) tmp
            = some (acc ++ c) := by
          rw [fsLookup_fsWrite, if_pos rfl, h]
          rfl
        rw [ih _ (acc ++ c) hw]
        simp [List.append_assoc]

theorem download_file_no_raise (r : Response) (out_path : String) (fs : FS)
    (h : ¬ (400 ≤ r.status_code ∧ r.status_code < 600)) :
    download_file r out_path fs
      = (DlOutcome.ok,
         fsWrite fs (out_path ++ ".part") []
           :: chunkStates (out_path ++ ".part") r.chunks (fsWrite fs (out_path ++ ".part") []),
         fsRename
           ((chunkStates (out_path ++ ".part") r.chunks
               (fsWrite fs (out_path ++ ".part") [])).getLastD
             (fsWrite fs (out_path ++ ".part") []))
           (out_path ++ ".part") out_path) := by
  rw [download_file, if_neg h]

/-- C1: for a success-status response, `download_file` returns normally, the
destination file afterwards holds exactly the response payload (the
concatenation of the body chunks), the temporary `.part` file is gone, and
in every file-system state strictly before the final rename — the
truncation of the temporary file and each chunk write — no file exists at
the destination path: the single rename is the only publication point. -/
theorem claim_C1 (r : Response) (out_path : String) (fs : FS)
    (hsucc : 200 ≤ r.status_code ∧ r.status_code < 300)
    (hout : fsLookup fs out_path = none) :
    (download_file r out_path fs).1 = DlOutcome.ok
  ∧ fsLookup (download_file r out_path fs).2.2 out_path = some r.chunks.flatten
  ∧ fsLookup (download_file r out_path fs).2.2 (out_path ++ ".part") = none
  ∧ ∀ s ∈ (download_file r out_path fs).2.1, fsLookup s out_path = none := by
  have hne : out_path ≠ out_path ++ ".part" := ne_append_part out_path
  have hcond : ¬ (400 ≤ r.status_code ∧ r.status_code < 600) := by omega
  rw [download_file_no_raise r out_path fs hcond]
  set tmp := out_path ++ ".part" with htmp
  set fs1 := fsWrite fs tmp [] with hfs1
  have h1out : fsLookup fs1 out_path = none := by
    rw [hfs1, fsLookup_fsWrite, if_neg hne, hout]
  have h1tmp : fsLookup fs1 tmp = some [] := by
    rw [hfs1, fsLookup_fsWrite, if_pos rfl]
  have hlast : fsLookup ((chunkStates tmp r.chunks fs1).getLastD fs1) tmp
      = some r.chunks.flatten := by
    have := fsLookup_chunkStates_getLastD tmp r.chunks fs1 [] h1tmp
    simpa using this
  refine ⟨rfl, ?_, ?_, ?_⟩
  · show fsLookup (fsRename ((chunkStates tmp r.chunks fs1).getLastD fs1) tmp out_path)
        out_path = some r.chunks.flatten
    rw [fsRename, hlast]
    rw [fsLookup_fsWrite, if_pos rfl]
  · show fsLookup (fsRename ((chunkStates tmp r.chunks fs1).getLastD fs1) tmp out_path)
        tmp = none
    rw [fsRename, hlast]
    rw [fsLookup_fsWrite, if_neg (fun hh => hne hh.symm), fsLookup_fsErase, if_pos rfl]
  · intro s hs
    rcases List.mem_cons.mp hs with h | h
    · rw [h, h1out]
    · rw [fsLookup_chunkStates_ne tmp out_path hne r.chunks fs1 s h, h1out]

/-- C1 witness: a concrete 200-status download with chunks `[1,2]` and
`[3]` into an empty file system. -/
theorem claim_C1_witness :
    (download_file ⟨200, [[1, 2], [3]]⟩ "task_5.zip" []).1 = DlOutcome.ok
  ∧ fsLookup (download_file ⟨200, [[1, 2], [3]]⟩ "task_5.zip" []).2.2 "task_5.zip"
      = some [1, 2, 3] := by
  have h := claim_C1 ⟨200, [[1, 2], [3]]⟩ "task_5.zip" [] (by decide) rfl
  refine ⟨h.1, ?_⟩
  rw [h.2.1]
  rfl

/-- C4 counterexample: the claim quantifies over every non-success status,
but `raise_for_status()` only raises for codes in `[400, 600)`.  Status 304
is not a success status (it is not in the 2xx class), yet `download_file`
does not fail and does create the destination file. -/
theorem claim_C4_counterexample :
    ¬ (200 ≤ 304 ∧ 304 < 300)
  ∧ (download_file ⟨304, [[7]]⟩ "task_1.zip" []).1 = DlOutcome.ok
  ∧ fsLookup (download_file ⟨304, [[7]]⟩ "task_1.zip" []).2.2 "task_1.zip" = some [7] := by
  refine ⟨by omega, by decide, by decide⟩

/-- C4 (amended): for every response whose status code is in `[400, 600)`
— the codes `raise_for_status()` treats as HTTP errors, which include the
claim's 404 and 500 examples — `download_file` fails with an HTTP error
carrying the status code, leaves the file system untouched, and no file
exists at the destination path afterwards (given none existed before). -/
theorem claim_C4 (r : Response) (out_path : String) (fs : FS)
    (herr : 400 ≤ r.status_code ∧ r.status_code < 600)
    (hout : fsLookup fs out_path = none) :
    download_file r out_path fs = (DlOutcome.httpError r.status_code, [], fs)
  ∧ fsLookup (download_file r out_path fs).2.2 out_path = none := by
  have he : download_file r out_path fs = (DlOutcome.httpError r.status_code, [], fs) := by
    rw [download_file, if_pos herr]
  exact ⟨he, by rw [he]; exact hout⟩

/-- C4 witness: a concrete 404 response against an empty file system. -/
theorem claim_C4_witness :
    download_file ⟨404, [[1]]⟩ "task_9.zip" []
      = (DlOutcome.httpError 404, [], [])
  ∧ fsLookup (download_file ⟨404, [[1]]⟩ "task_9.zip" []).2.2 "task_9.zip" = none :=
  claim_C4 ⟨404, [[1]]⟩ "task_9.zip" [] (by decide) rfl

/-- A poll step on which the loop keeps going: the status is neither
`finished` nor `failed` (case-insensitively) and the timeout budget has not
been exceeded at that step. -/
def nonterminalWithin (timeout_seconds : Int) (step : RqStatus × ℚ) : Prop :=
  pyLower step.1.status ≠ "finished" ∧ pyLower step.1.status ≠ "failed" ∧
    ¬ ((timeout_seconds : ℚ) < step.2)

instance (timeout_seconds : Int) (step : RqStatus × ℚ) :
    Decidable (nonterminalWithin timeout_seconds step) := by
  unfold nonterminalWithin
  infer_instance

theorem wait_skip (rq_id : String) (timeout_seconds : Int)
    (pre rest : List (RqStatus × ℚ))
    (h : ∀ s ∈ pre, nonterminalWithin timeout_seconds s) :
    wait_for_request_finished rq_id timeout_seconds (pre ++ rest)
      = wait_for_request_finished rq_id timeout_seconds rest := by
  induction pre with
  | nil => rfl
  | cons s pre ih =>
      obtain ⟨rq, elapsed⟩ := s
      obtain ⟨h1, h2, h3⟩ := h _ (List.mem_cons_self _ _)
      rw [List.cons_append, wait_for_request_finished, if_neg h1, if_neg h2, if_neg h3]
      exact ih (fun s hs => h s (List.mem_cons_of_mem _ hs))

/-- C2: in any polling run whose earlier polls are all non-terminal and
within the timeout budget, when a poll observes a status equal to
`finished` (compared case-insensitively): a non-empty `result_url` is
returned with no error, and an empty `result_url` raises the
internal-inconsistency `RuntimeError` naming the request identifier. -/
theorem claim_C2 (rq_id : String) (timeout_seconds : Int)
    (pre rest : List (RqStatus × ℚ)) (rq : RqStatus) (t : ℚ)
    (hpre : ∀ s ∈ pre, nonterminalWithin timeout_seconds s)
    (hfin : pyLower rq.status = "finished") :
    (rq.result_url ≠ "" →
      wait_for_request_finished rq_id timeout_seconds (pre ++ (rq, t) :: rest)
        = some (Except.ok rq.result_url))
  ∧ (rq.result_url = "" →
      wait_for_request_finished rq_id timeout_seconds (pre ++ (rq, t) :: rest)
        = some (Except.error (PollError.emptyResult rq_id))) := by
  rw [wait_skip rq_id timeout_seconds pre _ hpre]
  constructor <;> intro h <;>
    rw [wait_for_request_finished, if_pos hfin] <;>
    simp [h]

/-- C2 witness: a `queued → in_progress → Finished` trace with a non-empty
result location yields the location; an identical trace with an empty
location on the finished poll yields the internal-inconsistency error. -/
theorem claim_C2_witness :
    wait_for_request_finished "rq7" 1800
      [(⟨"queued", "", ""⟩, 0), (⟨"in_progress", "", ""⟩, 2), (⟨"Finished", "", "/api/x"⟩, 4)]
      = some (Except.ok "/api/x")
  ∧ wait_for_request_finished "rq7" 1800
      [(⟨"queued", "", ""⟩, 0), (⟨"Finished", "", ""⟩, 2)]
      = some (Except.error (PollError.emptyResult "rq7")) := by
  constructor
  · exact (claim_C2 "rq7" 1800 [(⟨"queued", "", ""⟩, 0), (⟨"in_progress", "", ""⟩, 2)] []
      ⟨"Finished", "", "/api/x"⟩ 4 (by decide) (by decide)).1 (by decide)
  · exact (claim_C2 "rq7" 1800 [(⟨"queued", "", ""⟩, 0)] []
      ⟨"Finished", "", ""⟩ 2 (by decide) (by decide)).2 rfl

/-- C3: (i) in any polling run whose earlier polls are all non-terminal
and within budget, a poll observing `failed` (case-insensitively) raises
the `RuntimeError` carrying exactly the platform-supplied `message` field;
(ii) if such a run reaches a poll that is still non-terminal but whose
elapsed time exceeds `timeout_seconds`, it raises the `TimeoutError`
carrying the status observed on that last poll. -/
theorem claim_C3 (rq_id : String) (timeout_seconds : Int)
    (pre rest : List (RqStatus × ℚ)) (rq : RqStatus) (t : ℚ)
    (hpre : ∀ s ∈ pre, nonterminalWithin timeout_seconds s) :
    (pyLower rq.status = "failed" →
      wait_for_request_finished rq_id timeout_seconds (pre ++ (rq, t) :: rest)
        = some (Except.error (PollError.jobFailed rq_id rq.message)))
  ∧ (pyLower rq.status ≠ "finished" → pyLower rq.status ≠ "failed" →
      (timeout_seconds : ℚ) < t →
      wait_for_request_finished rq_id timeout_seconds (pre ++ (rq, t) :: rest)
        = some (Except.error (PollError.timedOut rq_id rq.status))) := by
  rw [wait_skip rq_id timeout_seconds pre _ hpre]
  constructor
  · intro hf
    have hnf : pyLower rq.status ≠ "finished" := by
      rw [hf]; decide
    rw [wait_for_request_finished, if_neg hnf, if_pos hf]
  · intro h1 h2 h3
    rw [wait_for_request_finished, if_neg h1, if_neg h2, if_pos h3]

/-- C3 witness: a run ending in `failed` with message `"disk full"` yields
an error carrying exactly that message; a run still `in_progress` when the
elapsed time first exceeds the 1800-second budget yields a timeout error
naming that last observed status. -/
theorem claim_C3_witness :
    wait_for_request_finished "rq8" 1800
      [(⟨"queued", "", ""⟩, 0), (⟨"failed", "disk full", ""⟩, 2)]
      = some (Except.error (PollError.jobFailed "rq8" "disk full"))
  ∧ wait_for_request_finished "rq8" 1800
      [(⟨"queued", "", ""⟩, 0), (⟨"in_progress", "", ""⟩, 1801)]
      = some (Except.error (PollError.timedOut "rq8" "in_progress")) := by
  constructor
  · exact (claim_C3 "rq8" 1800 [(⟨"queued", "", ""⟩, 0)] []
      ⟨"failed", "disk full", ""⟩ 2 (by decide)).1 (by decide)
  · exact (claim_C3 "rq8" 1800 [(⟨"queued", "", ""⟩, 0)] []
      ⟨"in_progress", "", ""⟩ 1801 (by decide)).2 (by decide) (by decide) (by decide)

/-- C10: the terminal-state checks precede the timeout check: on a poll
whose elapsed time already exceeds `timeout_seconds`, an observed
`finished` status is still handled as success (or as the empty-result
inconsistency), an observed `failed` status is still handled as the
platform failure, and in neither case is the result a timeout error. -/
theorem claim_C10 (rq_id : String) (timeout_seconds : Int)
    (pre rest : List (RqStatus × ℚ)) (rq : RqStatus) (t : ℚ)
    (hpre : ∀ s ∈ pre, nonterminalWithin timeout_seconds s)
    (_hlate : (timeout_seconds : ℚ) < t) :
    (pyLower rq.status = "finished" →
      wait_for_request_finished rq_id timeout_seconds (pre ++ (rq, t) :: rest)
        = (if rq.result_url = "" then some (Except.error (PollError.emptyResult rq_id))
           else some (Except.ok rq.result_url)))
  ∧ (pyLower rq.status = "failed" →
      wait_for_request_finished rq_id timeout_seconds (pre ++ (rq, t) :: rest)
        = some (Except.error (PollError.jobFailed rq_id rq.message)))
  ∧ ((pyLower rq.status = "finished" ∨ pyLower rq.status = "failed") →
      ∀ a st, wait_for_request_finished rq_id timeout_seconds (pre ++ (rq, t) :: rest)
        ≠ some (Except.error (PollError.timedOut a st))) := by
  rw [wait_skip rq_id timeout_seconds pre _ hpre]
  have hfin : pyLower rq.status = "finished" →
      wait_for_request_finished rq_id timeout_seconds ((rq, t) :: rest)
        = (if rq.result_url = "" then some (Except.error (PollError.emptyResult rq_id))
           else some (Except.ok rq.result_url)) := by
    intro hf
    rw [wait_for_request_finished, if_pos hf]
  have hfail : pyLower rq.status = "failed" →
      wait_for_request_finished rq_id timeout_seconds ((rq, t) :: rest)
        = some (Except.error (PollError.jobFailed rq_id rq.message)) := by
    intro hf
    have hnf : pyLower rq.status ≠ "finished" := by
      rw [hf]; decide
    rw [wait_for_request_finished, if_neg hnf, if_pos hf]
  refine ⟨hfin, hfail, ?_⟩
  rintro (hf | hf) a st
  · rw [hfin hf]
    by_cases hu : rq.result_url = "" <;> simp [hu]
  · rw [hfail hf]
    simp

/-- C10 witness: a `Finished` status and a `failed` status, each first
observed at elapsed time 2000 with a 1800-second budget, are handled as
success and platform failure respectively, not as timeouts. -/
theorem claim_C10_witness :
    wait_for_request_finished "rq9" 1800
      [(⟨"queued", "", ""⟩, 0), (⟨"Finished", "", "/api/y"⟩, 2000)]
      = some (Except.ok "/api/y")
  ∧ wait_for_request_finished "rq9" 1800
      [(⟨"queued", "", ""⟩, 0), (⟨"failed", "oom", ""⟩, 2000)]
      = some (Except.error (PollError.jobFailed "rq9" "oom"))
  ∧ wait_for_request_finished "rq9" 1800
      [(⟨"queued", "", ""⟩, 0), (⟨"failed", "oom", ""⟩, 2000)]
      ≠ some (Except.error (PollError.timedOut "rq9" "failed")) := by
  refine ⟨?_, ?_, ?_⟩
  · have h := (claim_C10 "rq9" 1800 [(⟨"queued", "", ""⟩, 0)] []
      ⟨"Finished", "", "/api/y"⟩ 2000 (by decide) (by decide)).1 (by decide)
    rw [List.singleton_append] at h
    rw [h]
    decide
  · exact (claim_C10 "rq9" 1800 [(⟨"queued", "", ""⟩, 0)] []
      ⟨"failed", "oom", ""⟩ 2000 (by decide) (by decide)).2.1 (by decide)
  · exact (claim_C10 "rq9" 1800 [(⟨"queued", "", ""⟩, 0)] []
      ⟨"failed", "oom", ""⟩ 2000 (by decide) (by decide)).2.2 (Or.inr (by decide)) "rq9" "failed"

theorem pyInt_of_strip_nil (t : List Char) (h : pyStrip t = []) : pyInt t = none := by
  simp [pyInt, h, pyDigits]

theorem parseIdsGo_all_some :
    ∀ (ts : List (List Char)) (acc : List Int),
      (∀ t ∈ ts, (pyInt t).isSome) →
      parseIdsGo ts acc = some (acc.reverse ++ ts.filterMap pyInt) := by
  intro ts
  induction ts with
  | nil => intro acc _; simp [parseIdsGo]
  | cons t ts ih =>
      intro acc h
      have ht : (pyInt t).isSome := h t (List.mem_cons_self _ _)
      obtain ⟨n, hn⟩ := Option.isSome_iff_exists.mp ht
      have hstrip : ¬ (pyStrip t = []) := by
        intro hnil
        rw [pyInt_of_strip_nil t hnil] at hn
        cases hn
      rw [parseIdsGo, if_neg hstrip, hn]
      show parseIdsGo ts (n :: acc) = some (acc.reverse ++ List.filterMap pyInt (t :: ts))
      rw [ih (n :: acc) (fun u hu => h u (List.mem_cons_of_mem _ hu))]
      simp [List.filterMap_cons, hn, List.append_assoc]

theorem splitWsAux_tokens :
    ∀ (l acc : List Char), (∀ c ∈ acc, isPyWs c = false) →
      ∀ t ∈ splitWsAux l acc, t ≠ [] ∧ ∀ c ∈ t, isPyWs c = false := by
  intro l
  induction l with
  | nil =>
      intro acc hacc t ht
      rw [splitWsAux] at ht
      by_cases h : acc = []
      · simp [h] at ht
      · rw [if_neg h] at ht
        simp only [List.mem_singleton] at ht
        subst ht
        refine ⟨by simpa using h, ?_⟩
        intro c hc
        exact hacc c (List.mem_reverse.mp hc)
  | cons c cs ih =>
      intro acc hacc t ht
      rw [splitWsAux] at ht
      by_cases hw : isPyWs c = true
      · rw [if_pos hw] at ht
        by_cases h : acc = []
        · rw [if_pos h] at ht
          exact ih [] (by simp) t ht
        · rw [if_neg h] at ht
          rcases List.mem_cons.mp ht with h1 | h1
          · subst h1
            refine ⟨by simpa using h, ?_⟩
            intro c' hc'
            exact hacc c' (List.mem_reverse.mp hc')
          · exact ih [] (by simp) t h1
      · rw [if_neg hw] at ht
        refine ih (c :: acc) ?_ t ht
        intro c' hc'
        rcases List.mem_cons.mp hc' with h1 | h1
        · subst h1
          simpa using hw
        · exact hacc c' h1

theorem pyStrip_eq_self (t : List Char) (h : ∀ c ∈ t, isPyWs c = false) :
    pyStrip t = t := by
  have h1 : t.dropWhile isPyWs = t := by
    cases t with
    | nil => rfl
    | cons a l =>
        rw [List.dropWhile_cons, h a (List.mem_cons_self _ _)]
        simp
  rw [pyStrip, h1]
  have h2 : t.reverse.dropWhile isPyWs = t.reverse := by
    cases hr : t.reverse with
    | nil => rfl
    | cons a l =>
        have ha : a ∈ t := by
          rw [← List.mem_reverse, hr]
          exact List.mem_cons_self _ _
        rw [List.dropWhile_cons, h a ha]
        simp
  rw [h2, List.reverse_reverse]

theorem parseIdsGo_none :
    ∀ (ts : List (List Char)) (acc : List Int),
      (∀ t ∈ ts, t ≠ [] ∧ ∀ c ∈ t, isPyWs c = false) →
      (∃ t ∈ ts, pyInt t = none) →
      parseIdsGo ts acc = none := by
  intro ts
  induction ts with
  | nil =>
      intro acc _ h
      simp at h
  | cons t ts ih =>
      rintro acc hsh ⟨u, hu, hnone⟩
      have hts := hsh t (List.mem_cons_self _ _)
      have hstrip : pyStrip t = t := pyStrip_eq_self t hts.2
      have hne : ¬ (pyStrip t = []) := by
        rw [hstrip]
        exact hts.1
      rw [parseIdsGo, if_neg hne]
      rcases List.mem_cons.mp hu with h1 | h1
      · subst h1
        rw [hnone]
      · cases hpt : pyInt t with
        | none => rfl
        | some n =>
            exact ih (n :: acc) (fun v hv => hsh v (List.mem_cons_of_mem _ hv)) ⟨u, h1, hnone⟩

theorem tokensOf_shape (raw : String) :
    ∀ t ∈ tokensOf raw, t ≠ [] ∧ ∀ c ∈ t, isPyWs c = false := by
  intro t ht
  exact splitWsAux_tokens _ [] (by simp) t ht

/-- C5: a result location starting with `http://` or `https://` is returned
unchanged; otherwise the resolved URL is the server base with trailing
slashes stripped, one `/`, and the result location with leading slashes
stripped; in particular the spec's example resolves with no double slash. -/
theorem claim_C5 :
    (∀ server result_url : String,
      (pyStartsWith result_url "http://" || pyStartsWith result_url "https://") = true →
      resolve_download_url server result_url = result_url)
  ∧ (∀ server result_url : String,
      (pyStartsWith result_url "http://" || pyStartsWith result_url "https://") = false →
      resolve_download_url server result_url
        = pyRstrip server '/' ++ "/" ++ pyLstrip result_url '/')
  ∧ resolve_download_url "https://cvat2.example.com/" "/api/jobs/5/download"
      = "https://cvat2.example.com/api/jobs/5/download" := by
  refine ⟨?_, ?_, by decide⟩ <;>
    intro server result_url h <;>
    simp [resolve_download_url, h]

/-- C5 witness: an absolute result location is returned unchanged, and the
spec's relative example resolves to exactly one joining slash. -/
theorem claim_C5_witness :
    resolve_download_url "https://other.example.com" "https://cvat2.example.com/api/jobs/5/download"
      = "https://cvat2.example.com/api/jobs/5/download"
  ∧ resolve_download_url "https://cvat2.example.com/" "/api/jobs/5/download"
      = "https://cvat2.example.com/api/jobs/5/download" :=
  ⟨claim_C5.1 "https://other.example.com" "https://cvat2.example.com/api/jobs/5/download"
      (by decide),
   claim_C5.2.2⟩

/-- C6: on an input string all of whose comma/whitespace-separated tokens
parse as integers, `parse_task_ids` returns exactly those integers, in
order of appearance, with no deduplication (the `filterMap` keeps every
occurrence in sequence); the spec's mixed-delimiter example parses to
`[597, 599, 602, 685]`. -/
theorem claim_C6 :
    (∀ raw : String,
      (∀ t ∈ tokensOf raw, (pyInt t).isSome) →
      parse_task_ids raw = some ((tokensOf raw).filterMap pyInt))
  ∧ parse_task_ids "597, 599  602,685" = some [597, 599, 602, 685] := by
  constructor
  · intro raw h
    rw [parse_task_ids, parseIdsGo_all_some (tokensOf raw) [] h]
    rfl
  · decide

/-- C6 witness: the spec's example input, through the general statement. -/
theorem claim_C6_witness :
    parse_task_ids "597, 599  602,685"
      = some ((tokensOf "597, 599  602,685").filterMap pyInt) :=
  claim_C6.1 "597, 599  602,685" (by decide)

/-- C8: an input string with a token that is not a valid integer makes
`parse_task_ids` fail, and `main_run` then exits with status 1 having
performed no network activity (empty event trace) and no file-system
change — parsing happens before the API client is built and before any
request. -/
theorem claim_C8 (raw server outdir : String) (overwrite : Bool)
    (timeout_seconds : Int) (env : Int → TaskEnv) (fs : FS)
    (h : ∃ t ∈ tokensOf raw, pyInt t = none) :
    parse_task_ids raw = none
  ∧ main_run raw server outdir overwrite timeout_seconds env fs = some (1, fs, []) := by
  have hp : parse_task_ids raw = none :=
    parseIdsGo_none (tokensOf raw) [] (tokensOf_shape raw) h
  refine ⟨hp, ?_⟩
  rw [main_run, hp]

/-- C8 witness: the malformed input `"12,x"` aborts a run over an empty
file system with exit status 1, no events and no files. -/
theorem claim_C8_witness :
    parse_task_ids "12,x" = none
  ∧ main_run "12,x" "https://s" "out" false 1800 envScenario [] = some (1, [], []) :=
  claim_C8 "12,x" "https://s" "out" false 1800 envScenario [] (by decide)

/-- C7: per-task failures are isolated: a failure at the trigger, polling or
download stage of one identifier appends exactly one error-log event and
hands back a `some` result, the loop then continues with the remaining
identifiers unchanged, a completed run always carries exit status 0
regardless of per-task failures, and in the concrete two-task scenario
(first succeeds end to end, second rejected at the trigger) both
identifiers are processed, exactly one output file is produced and exactly
one error is logged. -/
theorem claim_C7 :
    (∀ (server outdir : String) (ow : Bool) (timeout_seconds : Int)
       (env : Int → TaskEnv) (fs : FS) (ev : List Event) (id : Int) (m : String),
      ¬ ((fsLookup fs (outFile outdir id)).isSome ∧ ow = false) →
      (env id).trigger = Except.error m →
      processTask server outdir ow timeout_seconds env fs ev id
        = some (fs, ev ++ [Event.netTrigger id, Event.errorLog id]))
  ∧ (∀ (server outdir : String) (ow : Bool) (timeout_seconds : Int)
       (env : Int → TaskEnv) (fs : FS) (ev : List Event) (id : Int)
       (rq_id : String) (pe : PollError),
      ¬ ((fsLookup fs (outFile outdir id)).isSome ∧ ow = false) →
      (env id).trigger = Except.ok rq_id →
      wait_for_request_finished rq_id timeout_seconds (env id).pollTrace
        = some (Except.error pe) →
      processTask server outdir ow timeout_seconds env fs ev id
        = some (fs, ev ++ [Event.netTrigger id, Event.netPoll id, Event.errorLog id]))
  ∧ (∀ (server outdir : String) (ow : Bool) (timeout_seconds : Int)
       (env : Int → TaskEnv) (fs : FS) (ev : List Event) (id : Int)
       (rq_id u : String) (c : Nat),
      ¬ ((fsLookup fs (outFile outdir id)).isSome ∧ ow = false) →
      (env id).trigger = Except.ok rq_id →
      wait_for_request_finished rq_id timeout_seconds (env id).pollTrace
        = some (Except.ok u) →
      (download_file ((env id).response (resolve_download_url server u))
          (outFile outdir id) fs).1 = DlOutcome.httpError c →
      processTask server outdir ow timeout_seconds env fs ev id
        = some ((download_file ((env id).response (resolve_download_url server u))
              (outFile outdir id) fs).2.2,
            ev ++ [Event.netTrigger id, Event.netPoll id, Event.netDownload id,
                   Event.errorLog id]))
  ∧ (∀ (server outdir : String) (ow : Bool) (timeout_seconds : Int)
       (env : Int → TaskEnv) (id : Int) (rest : List Int) (fs : FS) (ev : List Event)
       (p : FS × List Event),
      processTask server outdir ow timeout_seconds env fs ev id = some p →
      mainLoop server outdir ow timeout_seconds env (id :: rest) fs ev
        = mainLoop server outdir ow timeout_seconds env rest p.1 p.2)
  ∧ (∀ (raw server outdir : String) (ow : Bool) (timeout_seconds : Int)
       (env : Int → TaskEnv) (fs : FS) (ids : List Int) (z : Nat × FS × List Event),
      parse_task_ids raw = some ids →
      main_run raw server outdir ow timeout_seconds env fs = some z →
      z.1 = 0)
  ∧ main_run "1 2" "https://s" "out" false 1800 envScenario []
      = some (0, [("out/task_1.zip", [1, 2])],
          [Event.netTrigger 1, Event.netPoll 1, Event.netDownload 1, Event.saved 1,
           Event.netTrigger 2, Event.errorLog 2]) := by
  refine ⟨?_, ?_, ?_, ?_, ?_, by decide⟩
  · intro server outdir ow timeout_seconds env fs ev id m hns htrig
    rw [processTask, if_neg hns]
    dsimp only
    rw [htrig]
    simp
  · intro server outdir ow timeout_seconds env fs ev id rq_id pe hns htrig hw
    rw [processTask, if_neg hns]
    dsimp only
    rw [htrig]
    dsimp only
    rw [hw]
    simp
  · intro server outdir ow timeout_seconds env fs ev id rq_id u c hns htrig hw hdl
    rw [processTask, if_neg hns]
    dsimp only
    rw [htrig]
    dsimp only
    rw [hw]
    dsimp only
    rcases hdl2 : download_file ((env id).response (resolve_download_url server u))
        (outFile outdir id) fs with ⟨o, tr, fs2⟩
    rw [hdl2] at hdl
    dsimp only at hdl
    subst hdl
    simp
  · intro server outdir ow timeout_seconds env id rest fs ev p hp
    rw [mainLoop, hp]
  · intro raw server outdir ow timeout_seconds env fs ids z hp hz
    rw [main_run, hp] at hz
    dsimp only at hz
    rcases Option.map_eq_some'.mp hz with ⟨r, _, hr⟩
    rw [← hr]

/-- C7 witness: with `envScenario`, a trigger failure (id 2), a platform
job failure (id 3) and a download HTTP failure (id 4) are each logged and
return control to the loop; the loop then continues after the failed id;
the concrete two-task run exits with status 0. -/
theorem claim_C7_witness :
    processTask "https://s" "out" false 1800 envScenario [] [] 2
      = some ([], [Event.netTrigger 2, Event.errorLog 2])
  ∧ processTask "https://s" "out" false 1800 envScenario [] [] 3
      = some ([], [Event.netTrigger 3, Event.netPoll 3, Event.errorLog 3])
  ∧ processTask "https://s" "out" false 1800 envScenario [] [] 4
      = some ((download_file ((envScenario 4).response (resolve_download_url "https://s" "/r4"))
            (outFile "out" 4) []).2.2,
          [Event.netTrigger 4, Event.netPoll 4, Event.netDownload 4, Event.errorLog 4])
  ∧ mainLoop "https://s" "out" false 1800 envScenario [2] [] []
      = mainLoop "https://s" "out" false 1800 envScenario [] [] [Event.netTrigger 2, Event.errorLog 2]
  ∧ ((0 : Nat), ([("out/task_1.zip", [1, 2])] : FS),
      [Event.netTrigger 1, Event.netPoll 1, Event.netDownload 1, Event.saved 1,
       Event.netTrigger 2, Event.errorLog 2]).1 = 0 := by
  refine ⟨?_, ?_, ?_, ?_, ?_⟩
  · exact claim_C7.1 "https://s" "out" false 1800 envScenario [] [] 2 "boom"
      (by decide) (by decide)
  · exact claim_C7.2.1 "https://s" "out" false 1800 envScenario [] [] 3 "rq3"
      (PollError.jobFailed "rq3" "disk full") (by decide) (by decide) (by decide)
  · exact claim_C7.2.2.1 "https://s" "out" false 1800 envScenario [] [] 4 "rq4" "/r4" 404
      (by decide) (by decide) (by decide) (by decide)
  · exact claim_C7.2.2.2.1 "https://s" "out" false 1800 envScenario 2 [] [] []
      ([], [Event.netTrigger 2, Event.errorLog 2]) (by decide)
  · exact claim_C7.2.2.2.2.1 "1 2" "https://s" "out" false 1800 envScenario [] [1, 2]
      (0, [("out/task_1.zip", [1, 2])],
       [Event.netTrigger 1, Event.netPoll 1, Event.netDownload 1, Event.saved 1,
        Event.netTrigger 2, Event.errorLog 2]) (by decide) (by decide)

/-- C9: when the destination file for an identifier already exists and the
overwrite option is not set, the loop iteration returns the file system
unchanged (in particular the existing file is untouched) and appends only a
skip event — no trigger, poll or download event, hence no network call —
and the loop proceeds to the remaining identifiers. -/
theorem claim_C9 (server outdir : String) (timeout_seconds : Int)
    (env : Int → TaskEnv) (fs : FS) (ev : List Event) (id : Int) (rest : List Int)
    (c : List Nat)
    (hex : fsLookup fs (outFile outdir id) = some c) :
    processTask server outdir false timeout_seconds env fs ev id
      = some (fs, ev ++ [Event.skip id])
  ∧ mainLoop server outdir false timeout_seconds env (id :: rest) fs ev
      = mainLoop server outdir false timeout_seconds env rest fs (ev ++ [Event.skip id]) := by
  have h1 : processTask server outdir false timeout_seconds env fs ev id
      = some (fs, ev ++ [Event.skip id]) := by
    rw [processTask, if_pos ⟨by rw [hex]; rfl, rfl⟩]
  exact ⟨h1, by rw [mainLoop, h1]⟩

/-- C9 witness: a file system already holding `out/task_1.zip` makes the
iteration for id 1 a pure skip, and the loop continues. -/
theorem claim_C9_witness :
    processTask "https://s" "out" false 1800 envScenario [("out/task_1.zip", [9])] [] 1
      = some ([("out/task_1.zip", [9])], [Event.skip 1])
  ∧ mainLoop "https://s" "out" false 1800 envScenario [1] [("out/task_1.zip", [9])] []
      = mainLoop "https://s" "out" false 1800 envScenario [] [("out/task_1.zip", [9])]
          [Event.skip 1] :=
  claim_C9 "https://s" "out" 1800 envScenario [("out/task_1.zip", [9])] [] 1 [] [9] (by decide)
